import Mathlib

/-!
# Verification of the kct package compiler

Shallow embedding of `crates/kct_package/src/compiler.rs`,
`crates/kct_package/src/functions/file.rs` and `crates/kct_package/src/lib.rs`,
together with theorems settling the specification claims about the
workspace/compiler configuration model, the chained import resolution, the
property/extension binding mechanism, the `compile()` pipeline and its error
mapping, and the `File` template function.

External collaborators (the jsonnet evaluator, the tera template renderer,
the JSON-schema oracle, the filesystem) are modelled as explicit oracle
parameters, exactly at the interface the Rust code uses them.
-/

namespace Kct

/-- JSON values (`serde_json::Value`); numbers are modelled as integers since
no claim depends on number semantics. -/
inductive Json where
  | null
  | bool (b : Bool)
  | num (n : Int)
  | str (s : String)
  | arr (xs : List Json)
  | obj (fields : List (String × Json))

/-- `serde_json::Value::is_object`. -/
def Json.isObject : Json → Bool
  | .obj _ => true
  | _ => false

/-- The error enumeration of `kct_package::error::Error`, as used by
`compiler.rs` and `lib.rs`. -/
inductive Error where
  | invalidInput
  | renderIssue (msg : String)
  | invalidOutput
  | noSchema
  | noInput
deriving DecidableEq

/-- `PathBuf::push` for one component: paths are plain strings. -/
def pathPush (p c : String) : String := p ++ "/" ++ c

/-- `derive_builder`-generated builder for `Workspace`: every field optional. -/
structure WorkspaceBuilder where
  root : Option String := none
  entrypoint : Option String := none
  lib : Option String := none
  vendor : Option String := none

/-- `Workspace` from `compiler.rs`: all four paths present. -/
structure Workspace where
  root : String
  entrypoint : String
  lib : String
  vendor : String

/-- `WorkspaceBuilder::build()` (from `derive_builder`): fails iff any field
is still unset. -/
def WorkspaceBuilder.build (b : WorkspaceBuilder) : Option Workspace :=
  match b.root, b.entrypoint, b.lib, b.vendor with
  | some r, some e, some l, some v => some ⟨r, e, l, v⟩
  | _, _, _, _ => none

/-- `Compiler::default_lib` in `compiler.rs`. -/
def default_lib (root : String) : String := pathPush root "lib"

/-- `Compiler::default_vendor` in `compiler.rs`. -/
def default_vendor (root : String) : String := pathPush root "vendor"

/-- `Compiler::setup` in `compiler.rs` (lines 230-248): if `root` is present,
default `lib` and `vendor` from it; otherwise leave the builder untouched. -/
def Compiler.setup (b : WorkspaceBuilder) : WorkspaceBuilder :=
  match b.root with
  | none => b
  | some root =>
    let b1 := match b.lib with
      | none => { b with lib := some (default_lib root) }
      | some _ => b
    match b1.vendor with
    | none => { b1 with vendor := some (default_vendor root) }
    | some _ => b1

/-- `property::Name`: closed enumeration of property names. -/
inductive PropName where
  | package
  | release
  | input
deriving DecidableEq

/-- `property::Name::as_str`. -/
def PropName.asStr : PropName → String
  | .package => "package"
  | .release => "release"
  | .input => "input"

/-- `extension::Name`: closed enumeration of extension names. -/
inductive ExtName where
  | incl
  | file
deriving DecidableEq

/-- `extension::Name::as_str`. -/
def ExtName.asStr : ExtName → String
  | .incl => "include"
  | .file => "file"

/-- A native `Function` exposed to the evaluator: an ordered parameter list
and a handler from named JSON arguments to a JSON value or an error string. -/
structure Function where
  params : List String
  handler : List (String × Json) → Except String Json

/-- `jrsonnet_evaluator::Val`, restricted to the shapes the compiler
produces for external bindings: null, a plain JSON value (`Val::from`),
or a native function (`Val::Func` wrapping `FuncVal::NativeExt`). -/
inductive Val where
  | null
  | json (v : Json)
  | func (name : String) (f : Function)

/-- `Val.null`-ness, to speak about absent bindings. -/
def Val.isNull : Val → Bool
  | .null => true
  | _ => false

/-- `HashMap::insert` on an association list: replaces the value when the key
is already present, appends otherwise (observationally the map update the
Rust `HashMap` performs). -/
def insertKV {κ α : Type} [DecidableEq κ] (k : κ) (v : α) :
    List (κ × α) → List (κ × α)
  | [] => [(k, v)]
  | (k1, v1) :: rest =>
    if k = k1 then (k, v) :: rest else (k1, v1) :: insertKV k v rest

/-- Association-list lookup (`HashMap::get`). -/
def lookupKV {κ α : Type} [DecidableEq κ] (k : κ) :
    List (κ × α) → Option α
  | [] => none
  | (k1, v1) :: rest => if k = k1 then some v1 else lookupKV k rest

/-- The `Compiler` of `compiler.rs`. A registered `dyn Property` is modelled
by the JSON value its nullary `generate()` returns; a registered
`dyn Extension` by the `Function` its `generate(&Compiler)` produces for this
compiler. Validators (`dyn Fn(&Compiler) -> bool`) are kept as opaque data of
type `V`, invoked through an explicit `runV` interpretation at `compile()`
time so that the structure stays positive. -/
structure Compiler (V : Type) where
  workspace : Workspace
  properties : List (PropName × Json) := []
  extensions : List (ExtName × Function) := []
  validators : List V := []

/-- `TryFrom<WorkspaceBuilder> for Compiler` (lines 76-88): run the
defaulting pass, then `build()`, mapping a build failure to `InvalidInput`. -/
def Compiler.tryFrom (V : Type) (b : WorkspaceBuilder) : Except Error (Compiler V) :=
  match (Compiler.setup b).build with
  | none => .error .invalidInput
  | some w => .ok { workspace := w }

/-- `Compiler::prop` (lines 97-101): `HashMap::insert` keyed by name. -/
def Compiler.prop {V : Type} (c : Compiler V) (name : PropName) (value : Json) :
    Compiler V :=
  { c with properties := insertKV name value c.properties }

/-- `Compiler::extension` (lines 103-107): `HashMap::insert` keyed by name. -/
def Compiler.extension {V : Type} (c : Compiler V) (name : ExtName) (f : Function) :
    Compiler V :=
  { c with extensions := insertKV name f c.extensions }

/-- `Compiler::validator` (lines 109-113): push onto the ordered sequence. -/
def Compiler.validator {V : Type} (c : Compiler V) (v : V) : Compiler V :=
  { c with validators := c.validators ++ [v] }

/-- `VARS_PREFIX` constant (`compiler.rs` line 30). -/
def VARS_PREFIX : String := "kct.io"

/-- Modelled from the spec: the embedded standard-library source text.
`LIB_CODE` is `include_str!("lib.libsonnet")` and `lib.libsonnet` is not under
`src/`; the claims only require it to be a fixed in-memory text served
independently of the filesystem, so its exact contents are abstracted here. -/
def LIB_CODE : String := "<embedded kct standard library>"

/-- `Compiler::create_ext_vars` (lines 152-193): one binding per name of the
closed enumerations, in enumeration order; a registered property contributes
its generated JSON value, a registered extension its native function, and an
absent registration contributes `Val::Null`. -/
def Compiler.create_ext_vars {V : Type} (c : Compiler V) : List (String × Val) :=
  let from_prop := fun (p : PropName) =>
    let val := match lookupKV p c.properties with
      | none => Val.null
      | some v => Val.json v
    (p.asStr, val)
  let from_ext := fun (e : ExtName) =>
    let val := match lookupKV e c.extensions with
      | none => Val.null
      | some f => Val.func e.asStr f
    (e.asStr, val)
  [ from_prop .package, from_prop .release, from_prop .input,
    from_ext .incl, from_ext .file ]

/-- A filesystem oracle for import resolution: `readFile p` is `some` of the
file's content exactly when the path exists and is readable. -/
structure Fs where
  readFile : String → Option String

/-- Parent directory of a path: drop the last `/`-separated component. -/
def parentDir (p : String) : String :=
  String.mk (((p.data.reverse.dropWhile (fun ch => ch ≠ '/')).drop 1).reverse)

/-- `StaticImportResolver` configuration: one fixed virtual path with fixed
in-memory contents. -/
structure StaticImportResolver where
  path : String
  contents : String

/-- The three import resolver kinds registered by `create_state`. -/
inductive Resolver where
  | static (r : StaticImportResolver)
  | relative
  | lib (library_paths : List String)

/-- Modelled from the spec: the library resolver's search over its ordered
root list (`resolvers.rs` is not under `src/`). For each root in order, join
root and import spec; the first existing readable match wins. -/
def libResolve (fs : Fs) (imp : String) : List String → Option (String × String)
  | [] => none
  | root :: rest =>
    let p := pathPush root imp
    match fs.readFile p with
    | some c => some (p, c)
    | none => libResolve fs imp rest

/-- Modelled from the spec: one resolver's answer to
`(importing_file_path, import_spec_string)` (`resolvers.rs` is not under
`src/`). The static resolver compares the spec against its fixed virtual path
and serves its embedded contents without touching the filesystem; the
relative resolver joins the importer's parent directory with the spec and
succeeds only if that path exists and is readable; the library resolver
searches its ordered roots. `none` means the resolver declines. -/
def Resolver.resolve (fs : Fs) (importer imp : String) :
    Resolver → Option (String × String)
  | .static r => if imp = r.path then some (r.path, r.contents) else none
  | .relative =>
    let p := pathPush (parentDir importer) imp
    (fs.readFile p).map (fun c => (p, c))
  | .lib roots => libResolve fs imp roots

/-- Modelled from the spec: `AggregatedImportResolver` tries its members in
registration order and returns the first non-declining result
(`resolvers.rs` is not under `src/`). -/
def resolveChain (fs : Fs) (importer imp : String) :
    List Resolver → Option (String × String)
  | [] => none
  | r :: rest =>
    match r.resolve fs importer imp with
    | some out => some out
    | none => resolveChain fs importer imp rest

/-- `Compiler::create_state` (lines 195-226), restricted to the import
resolver chain it installs: static (virtual path `VARS_PREFIX`, embedded
`LIB_CODE`), then relative, then library with roots `[vendor, lib]`. -/
def Compiler.create_state {V : Type} (c : Compiler V) : List Resolver :=
  [ Resolver.static { path := VARS_PREFIX, contents := LIB_CODE },
    Resolver.relative,
    Resolver.lib [c.workspace.vendor, c.workspace.lib] ]

/-- `jrsonnet_evaluator::error::Error`, split into the one variant
`compile()` treats specially and all others, the latter carried by their
`Display` text. -/
inductive JrError where
  | importSyntaxError (path : String)
  | other (display : String)

/-- The `render_issue` closure of `Compiler::compile` (lines 116-125). -/
def render_issue : JrError → Error
  | .importSyntaxError path => .renderIssue ("syntax error at " ++ path)
  | .other display => .renderIssue display

/-- The evaluator engine as the black box `compile()` drives: evaluate the
entrypoint given the external bindings and resolver chain, manifest a value
to text, and (for `serde_json::from_str`) parse text back to JSON. -/
structure Evaluator where
  evaluateFile : List (String × Val) → List Resolver → String → Except JrError Val
  manifest : Val → Except JrError String
  parse : String → Option Json

/-- The validator loop of `Compiler::compile` (lines 127-131): run each
registered validator in order, stopping at the first `false`. -/
def checkValidators {V : Type} (c : Compiler V) (runV : V → Compiler V → Bool) :
    List V → Bool
  | [] => true
  | v :: rest => if runV v c then checkValidators c runV rest else false

/-- How many validators the loop of `Compiler::compile` actually invokes on a
given list: all of them while they pass, and none beyond the first failure. -/
def validatorsInvoked {V : Type} (c : Compiler V) (runV : V → Compiler V → Bool) :
    List V → Nat
  | [] => 0
  | v :: rest => if runV v c then validatorsInvoked c runV rest + 1 else 1

/-- `Compiler::compile` (lines 115-150): validator pass, then evaluator state
construction, external-variable binding under `VARS_PREFIX`, entrypoint
evaluation, manifesting, and JSON re-parsing, with the error mapping of the
source. -/
def Compiler.compile {V : Type} (c : Compiler V) (runV : V → Compiler V → Bool)
    (ev : Evaluator) : Except Error Json :=
  if checkValidators c runV c.validators then
    let state := c.create_state
    let vars := c.create_ext_vars
    let named := vars.map (fun nv => ( VARS_PREFIX ++ "/" ++ nv.1, nv.2))
    match ev.evaluateFile named state c.workspace.entrypoint with
    | .error e => .error (render_issue e)
    | .ok parsed =>
      match ev.manifest parsed with
      | .error e => .error (render_issue e)
      | .ok rendered =>
        match ev.parse rendered with
        | none => .error .invalidOutput
        | some json => .ok json
  else .error .invalidInput

/-- The exact evaluation call `compile()` makes once the validators pass:
the entrypoint is evaluated under the prefixed external bindings and the
resolver chain of `create_state`. -/
def evalEntry {V : Type} (ev : Evaluator) (c : Compiler V) : Except JrError Val :=
  ev.evaluateFile
    (c.create_ext_vars.map (fun nv => ( VARS_PREFIX ++ "/" ++ nv.1, nv.2)))
    c.create_state c.workspace.entrypoint

/-- `TEMPLATES_FOLDER` constant of `functions/file.rs`. -/
def TEMPLATES_FOLDER : String := "files"

/-- Filesystem and glob-walker oracle for one invocation of the `File`
function: directory existence, success of `GlobWalkerBuilder::build`, the
walker's traversal outcome (matched absolute paths in traversal order, or a
traversal error), and `fs::read_to_string`. -/
structure TemplateFs where
  dirExists : String → Bool
  globBuild : Except String Unit
  walk : Except String (List String)
  readFile : String → Except String String

/-- Lexicographic order on paths, by character sequence: the order of
`paths.sort()` in `compile_template`. -/
def pathLe (a b : String) : Prop := a.data ≤ b.data

instance : DecidableRel pathLe :=
  fun a b => inferInstanceAs (Decidable (a.data ≤ b.data))

instance : IsTrans String pathLe := ⟨fun _ _ _ => le_trans⟩

instance : IsTotal String pathLe := ⟨fun a b => le_total a.data b.data⟩

instance : IsAntisymm String pathLe := ⟨fun a b h1 h2 => by
  cases a
  cases b
  exact congrArg String.mk (le_antisymm h1 h2)⟩

/-- The rendering context `compile_template` builds from the input value:
null becomes an empty object, anything else is used directly. -/
def mkContext (input : Json) : Json :=
  match input with
  | .null => Json.obj []
  | v => v

/-- `compile_template` of `functions/file.rs` (lines 67-109): require the
`files` directory, build and run the glob walker, sort the matched paths,
read each file, build the rendering context from the input value (null
becomes an empty object), and render every content through the tera
collaborator `tera content context`. -/
def compile_template (fs : TemplateFs)
    (tera : String → Json → Except String String)
    (root glob : String) (input : Json) : Except String (List String) :=
  if !fs.dirExists (pathPush root TEMPLATES_FOLDER) then
    .error "No files folder to search for templates"
  else
    match fs.globBuild with
    | .error err => .error ("Invalid glob provided (" ++ glob ++ "): " ++ err)
    | .ok _ =>
      match fs.walk with
      | .error err => .error ("Unable to resolve globs: " ++ err)
      | .ok entries =>
        let paths := List.insertionSort pathLe entries
        match paths.mapM fs.readFile with
        | .error err => .error ("Unable to read templates: " ++ err)
        | .ok contents =>
          let context := mkContext input
          match contents.mapM (fun content => tera content context) with
          | .error err => .error ("Unable to compile templates: " ++ err)
          | .ok compiled => .ok compiled

/-- The result shaping of the `File` handler (`functions/file.rs` lines
45-53): an empty compilation is an error naming the glob, a single result a
plain string, several results an array of strings. -/
def collapseShape (glob : String) : List String → Except String Json
  | [] => .error ("No template found for glob " ++ glob)
  | [one] => .ok (Json.str one)
  | many => .ok (Json.arr (many.map Json.str))

/-- The handler closure of `File::generate` (`functions/file.rs` lines
32-54): require a string `name` parameter, compile the templates matching it,
and collapse the result shape via `collapseShape`. -/
def fileHandler (fs : TemplateFs) (tera : String → Json → Except String String)
    (root : String) (input : Json)
    (params : List (String × Json)) : Except String Json :=
  match lookupKV "name" params with
  | none => .error "name is required"
  | some v =>
    match v with
    | .str file =>
      match compile_template fs tera root file input with
      | .error e => .error e
      | .ok compiled => collapseShape file compiled
    | _ => .error "name should be a string"

/-- `File::generate` (`functions/file.rs`): the produced native `Function`,
with the single required parameter `name` and the handler above capturing the
workspace root and the already-generated input value. -/
def File.generate (fs : TemplateFs) (tera : String → Json → Except String String)
    (root : String) (input : Json) : Function :=
  { params := ["name"], handler := fileHandler fs tera root input }

/-- `Package` of `lib.rs`, reduced to the field the compile-time input
validation consults: the optional schema, itself reduced to its yes/no
validation oracle (out-of-scope collaborator). -/
structure Package where
  schema : Option (Json → Bool)

/-- `validate_input` of `lib.rs` (lines 128-141). -/
def validate_input (schema : Option (Json → Bool)) (input : Option Json) :
    Except Error Unit :=
  match schema, input with
  | none, none => .ok ()
  | none, some _ => .error .noSchema
  | some _, none => .error .noInput
  | some s, some v => if v.isObject && s v then .ok () else .error .invalidInput

/-- `Package::compile` of `lib.rs` (lines 121-126): validate the input
against the schema, then hand off to `compile::compile` (an oracle here,
`compile.rs` not being under `src/`) with the input defaulted to null. -/
def Package.compile {ρ : Type} (p : Package) (input : Option Json) (release : Option ρ)
    (doCompile : Package → Json → Option ρ → Except Error Json) : Except Error Json :=
  match validate_input p.schema input with
  | .error e => .error e
  | .ok _ => doCompile p (input.getD Json.null) release

/-! ### Concrete fixtures used to instantiate the theorems below. -/

/-- A concrete workspace. -/
def sampleWorkspace : Workspace :=
  { root := "r", entrypoint := "r/templates/main.jsonnet",
    lib := "r/lib", vendor := "r/vendor" }

/-- A concrete compiler over Boolean validator tokens. -/
def sampleCompiler : Compiler Bool := { workspace := sampleWorkspace }

/-- Interpretation of a Boolean validator token: its own value. -/
def runBool : Bool → Compiler Bool → Bool := fun b _ => b

/-- An evaluator whose three stages all succeed, producing `Json.num 1`. -/
def okEvaluator : Evaluator :=
  { evaluateFile := fun _ _ _ => .ok (Val.json (Json.num 1)),
    manifest := fun _ => .ok "1",
    parse := fun _ => some (Json.num 1) }

/-- An evaluator whose evaluation stage fails with the given error. -/
def errEvaluator (e : JrError) : Evaluator :=
  { evaluateFile := fun _ _ _ => .error e,
    manifest := fun _ => .ok "",
    parse := fun _ => none }

/-- A concrete template filesystem with the given traversal outcome. -/
def sampleTemplateFs (walk : Except String (List String)) : TemplateFs :=
  { dirExists := fun _ => true, globBuild := .ok (), walk := walk,
    readFile := fun p => .ok ("content of " ++ p) }

/-- A trivial tera oracle rendering every template to itself. -/
def idTera : String → Json → Except String String := fun c _ => .ok c

/-- A concrete compiler whose second validator fails. -/
def failingCompiler : Compiler Bool :=
  { workspace := sampleWorkspace, validators := [true, false, true] }

/-- A concrete import filesystem: one file next to the importer and a
same-named file in the vendor root. -/
def sampleFs : Fs :=
  { readFile := fun p =>
      if p = "r/templates/other.jsonnet" then some "relative content"
      else if p = "r/vendor/other.jsonnet" then some "vendored content"
      else none }

/-- A concrete package whose schema accepts exactly JSON objects. -/
def samplePackage : Package := { schema := some (fun j => j.isObject) }

/-- A concrete `compile::compile` oracle. -/
def sampleDoCompile : Package → Json → Option Unit → Except Error Json :=
  fun _ _ _ => .ok Json.null

/-! ### Helper lemmas -/

/-- `build` fails exactly when some builder field is still unset. -/
theorem build_eq_none_iff (b : WorkspaceBuilder) :
    b.build = none ↔
      b.root = none ∨ b.entrypoint = none ∨ b.lib = none ∨ b.vendor = none := by
  obtain ⟨root, entry, lib, vendor⟩ := b
  cases root <;> cases entry <;> cases lib <;> cases vendor <;>
    simp [WorkspaceBuilder.build]

/-- Re-inserting under the same key overwrites the earlier insertion. -/
theorem insertKV_insertKV {κ α : Type} [DecidableEq κ] (k : κ) (v1 v2 : α)
    (l : List (κ × α)) : insertKV k v2 (insertKV k v1 l) = insertKV k v2 l := by
  induction l with
  | nil => simp [insertKV]
  | cons hd tl ih =>
    obtain ⟨k1, a1⟩ := hd
    by_cases h : k = k1
    · simp [insertKV, h]
    · simp [insertKV, h, ih]

/-! ### Claim theorems -/

/-- **C3.** With only `root` set, the defaulting pass fills `lib` with
`root/lib` and `vendor` with `root/vendor`; building a `Compiler` from a
builder fails with `InvalidInput` whenever some field is still unset after
defaulting, in particular whenever `root` is absent and not all four fields
were supplied. -/
theorem workspace_defaulting_and_build_failure (V : Type) (r : String)
    (b : WorkspaceBuilder)
    (h : (Compiler.setup b).root = none ∨ (Compiler.setup b).entrypoint = none ∨
         (Compiler.setup b).lib = none ∨ (Compiler.setup b).vendor = none) :
    Compiler.setup { root := some r }
      = { root := some r, entrypoint := none,
          lib := some (pathPush r "lib"), vendor := some (pathPush r "vendor") }
    ∧ Compiler.tryFrom V b = .error .invalidInput
    ∧ (∀ b2 : WorkspaceBuilder, b2.root = none →
        (b2.entrypoint = none ∨ b2.lib = none ∨ b2.vendor = none) →
        Compiler.tryFrom V b2 = .error .invalidInput) := by
  refine ⟨rfl, ?_, ?_⟩
  · unfold Compiler.tryFrom
    have hb : (Compiler.setup b).build = none := (build_eq_none_iff _).mpr h
    rw [hb]
  · intro b2 hroot hrest
    unfold Compiler.tryFrom
    have hsetup : Compiler.setup b2 = b2 := by
      unfold Compiler.setup
      rw [hroot]
    have hb : (Compiler.setup b2).build = none := by
      rw [hsetup]
      exact (build_eq_none_iff _).mpr (Or.inr hrest)
    rw [hb]

/-- Witness for **C3** at the empty builder and root `"r"`. -/
theorem workspace_defaulting_witness :
    Compiler.setup { root := some "r" }
      = { root := some "r", entrypoint := none,
          lib := some (pathPush "r" "lib"), vendor := some (pathPush "r" "vendor") }
    ∧ Compiler.tryFrom Unit {} = .error .invalidInput
    ∧ (∀ b2 : WorkspaceBuilder, b2.root = none →
        (b2.entrypoint = none ∨ b2.lib = none ∨ b2.vendor = none) →
        Compiler.tryFrom Unit b2 = .error .invalidInput) :=
  workspace_defaulting_and_build_failure Unit "r" {} (Or.inl rfl)

/-- **C9.** Registering a property (or an extension) under an
already-registered name overwrites the earlier registration: registering
`g1` then `g2` under the same name yields the same compiler as registering
`g2` alone. -/
theorem registration_last_wins {V : Type} (c : Compiler V) (n : PropName)
    (g1 g2 : Json) (e : ExtName) (f1 f2 : Function) :
    (c.prop n g1).prop n g2 = c.prop n g2
    ∧ (c.extension e f1).extension e f2 = c.extension e f2 := by
  constructor
  · simp [Compiler.prop, insertKV_insertKV]
  · simp [Compiler.extension, insertKV_insertKV]

/-- **C8.** Every external binding is named `VARS_PREFIX ++ "/" ++ name`
with `VARS_PREFIX = "kct.io"` and name among package, release, input,
include, file; and the static resolver's virtual path is exactly
`VARS_PREFIX`, serving the embedded `LIB_CODE` for any filesystem. -/
theorem bindings_namespaced_and_static_virtual_path {V : Type} (c : Compiler V) :
    (c.create_ext_vars.map (fun nv => VARS_PREFIX ++ "/" ++ nv.1)
      = ["kct.io/package", "kct.io/release", "kct.io/input",
         "kct.io/include", "kct.io/file"])
    ∧ (∃ rest, c.create_state
        = Resolver.static { path := VARS_PREFIX, contents := LIB_CODE } :: rest)
    ∧ (∀ (fs : Fs) (importer : String),
        (Resolver.static { path := VARS_PREFIX, contents := LIB_CODE }).resolve
            fs importer VARS_PREFIX
          = some ( VARS_PREFIX, LIB_CODE)) := by
  refine ⟨rfl, ⟨_, rfl⟩, fun fs importer => ?_⟩
  simp [Resolver.resolve]

/-- The validator loop rejects a list whose prefix passes and whose next
element fails, whatever follows. -/
theorem checkValidators_append_false {V : Type} (c : Compiler V)
    (runV : V → Compiler V → Bool) (pre : List V) (v : V) (rest : List V)
    (hpre : ∀ u ∈ pre, runV u c = true) (hv : runV v c = false) :
    checkValidators c runV (pre ++ v :: rest) = false := by
  induction pre with
  | nil => simp [checkValidators, hv]
  | cons a tl ih =>
    have ha : runV a c = true := hpre a (by simp)
    simp only [List.cons_append, checkValidators, ha, if_true]
    exact ih (fun u hu => hpre u (by simp [hu]))

/-- The validator loop invokes exactly the passing prefix plus the first
failing validator. -/
theorem validatorsInvoked_append {V : Type} (c : Compiler V)
    (runV : V → Compiler V → Bool) (pre : List V) (v : V) (rest : List V)
    (hpre : ∀ u ∈ pre, runV u c = true) (hv : runV v c = false) :
    validatorsInvoked c runV (pre ++ v :: rest) = pre.length + 1 := by
  induction pre with
  | nil => simp [validatorsInvoked, hv]
  | cons a tl ih =>
    have ha : runV a c = true := hpre a (by simp)
    simp only [List.cons_append, validatorsInvoked, ha, if_true, List.length_cons,
      List.append_eq]
    rw [ih (fun u hu => hpre u (by simp [hu]))]

/-- **C6.** When the registered validators are a passing prefix followed by
a failing one, `compile()` returns `InvalidInput` for every evaluator (so no
evaluation effect can occur), only the passing prefix plus the failing
validator are invoked, and registration order is the list order. -/
theorem validator_fail_fast {V : Type} (c : Compiler V)
    (runV : V → Compiler V → Bool) (pre : List V) (v : V) (rest : List V)
    (hval : c.validators = pre ++ v :: rest)
    (hpre : ∀ u ∈ pre, runV u c = true)
    (hv : runV v c = false) :
    (∀ ev : Evaluator, c.compile runV ev = .error .invalidInput)
    ∧ validatorsInvoked c runV c.validators = pre.length + 1
    ∧ (∀ (c2 : Compiler V) (u : V), (c2.validator u).validators = c2.validators ++ [u]) := by
  have hcheck : checkValidators c runV c.validators = false := by
    rw [hval]
    exact checkValidators_append_false c runV pre v rest hpre hv
  refine ⟨fun ev => ?_, ?_, fun c2 u => rfl⟩
  · unfold Compiler.compile
    rw [hcheck]
    simp
  · rw [hval]
    exact validatorsInvoked_append c runV pre v rest hpre hv

/-- Witness for **C6** on a compiler with validators `[true, false, true]`. -/
theorem validator_fail_fast_witness :
    failingCompiler.compile runBool okEvaluator = .error .invalidInput
    ∧ validatorsInvoked failingCompiler runBool failingCompiler.validators = 2 := by
  have h := validator_fail_fast failingCompiler runBool [true] false [true] rfl
    (by intro u hu; simp at hu; simp [hu, runBool]) rfl
  exact ⟨h.1 okEvaluator, h.2.1⟩

/-- Once the validators pass, `compile()` is the evaluate → manifest → parse
pipeline with the source's error mapping. -/
theorem compile_eq_pipeline {V : Type} (c : Compiler V)
    (runV : V → Compiler V → Bool) (ev : Evaluator)
    (hv : checkValidators c runV c.validators = true) :
    c.compile runV ev =
      match evalEntry ev c with
      | .error e => .error (render_issue e)
      | .ok parsed =>
        match ev.manifest parsed with
        | .error e => .error (render_issue e)
        | .ok rendered =>
          match ev.parse rendered with
          | none => .error .invalidOutput
          | some json => .ok json := by
  unfold Compiler.compile evalEntry
  simp [hv]

/-- **C2.** With the validators passing, every evaluation or manifesting
failure surfaces as `RenderIssue`, whose message is `"syntax error at
<path>"` exactly for import syntax errors and the evaluator's own display
text otherwise; a manifested text that does not parse as JSON yields
`InvalidOutput`; and a fully successful pipeline yields the parsed value, so
no other error kind can arise from these stages. -/
theorem compile_error_mapping {V : Type} (c : Compiler V)
    (runV : V → Compiler V → Bool) (ev : Evaluator)
    (hv : checkValidators c runV c.validators = true) :
    (∀ p, evalEntry ev c = .error (.importSyntaxError p) →
        c.compile runV ev = .error (.renderIssue ("syntax error at " ++ p)))
    ∧ (∀ m, evalEntry ev c = .error (.other m) →
        c.compile runV ev = .error (.renderIssue m))
    ∧ (∀ val p, evalEntry ev c = .ok val →
        ev.manifest val = .error (.importSyntaxError p) →
        c.compile runV ev = .error (.renderIssue ("syntax error at " ++ p)))
    ∧ (∀ val m, evalEntry ev c = .ok val → ev.manifest val = .error (.other m) →
        c.compile runV ev = .error (.renderIssue m))
    ∧ (∀ val text, evalEntry ev c = .ok val → ev.manifest val = .ok text →
        ev.parse text = none → c.compile runV ev = .error .invalidOutput)
    ∧ (∀ val text j, evalEntry ev c = .ok val → ev.manifest val = .ok text →
        ev.parse text = some j → c.compile runV ev = .ok j) := by
  have hc := compile_eq_pipeline c runV ev hv
  refine ⟨fun p h1 => ?_, fun m h1 => ?_, fun val p h1 h2 => ?_,
    fun val m h1 h2 => ?_, fun val text h1 h2 h3 => ?_,
    fun val text j h1 h2 h3 => ?_⟩ <;>
    simp [hc, h1, render_issue] <;> simp [h2, render_issue] <;> simp [h3]

/-- Witness for **C2**: an import syntax error is rendered with the
specialized message. -/
theorem compile_error_mapping_witness :
    sampleCompiler.compile runBool (errEvaluator (.importSyntaxError "r/x.jsonnet"))
      = .error (.renderIssue ("syntax error at " ++ "r/x.jsonnet")) := by
  have h := compile_error_mapping sampleCompiler runBool
    (errEvaluator (.importSyntaxError "r/x.jsonnet")) rfl
  exact h.1 "r/x.jsonnet" rfl

/-- **C7.** Each of the five names is bound exactly once; an unregistered
property or extension name is bound to `Val.null`; and such an absence by
itself never fails a compile: with passing validators, a successful
evaluator pipeline still returns its value. -/
theorem absent_generators_bind_null {V : Type} (c : Compiler V)
    (runV : V → Compiler V → Bool) (ev : Evaluator) (p : PropName) (e : ExtName)
    (hp : lookupKV p c.properties = none)
    (he : lookupKV e c.extensions = none)
    (hv : checkValidators c runV c.validators = true) :
    (c.create_ext_vars.map Prod.fst)
      = ["package", "release", "input", "include", "file"]
    ∧ lookupKV p.asStr c.create_ext_vars = some Val.null
    ∧ lookupKV e.asStr c.create_ext_vars = some Val.null
    ∧ (∀ (val : Val) (text : String) (j : Json),
        evalEntry ev c = .ok val →
        ev.manifest val = .ok text →
        ev.parse text = some j →
        c.compile runV ev = .ok j) := by
  refine ⟨rfl, ?_, ?_, fun val text j h1 h2 h3 => ?_⟩
  · cases p <;>
      simp [Compiler.create_ext_vars, lookupKV, PropName.asStr, ExtName.asStr, hp]
  · cases e <;>
      simp [Compiler.create_ext_vars, lookupKV, PropName.asStr, ExtName.asStr, he]
  · simp [compile_eq_pipeline c runV ev hv, h1, h2, h3]

/-- Witness for **C7** on a compiler with nothing registered. -/
theorem absent_generators_bind_null_witness :
    lookupKV "release" sampleCompiler.create_ext_vars = some Val.null
    ∧ lookupKV "include" sampleCompiler.create_ext_vars = some Val.null
    ∧ sampleCompiler.compile runBool okEvaluator = .ok (Json.num 1) := by
  have h := absent_generators_bind_null sampleCompiler runBool okEvaluator
    .release .incl rfl rfl rfl
  exact ⟨h.2.1, h.2.2.1, h.2.2.2 (Val.json (Json.num 1)) "1" (Json.num 1) rfl rfl rfl⟩

/-- **C1.** `create_state` installs exactly the three resolvers static,
relative, library (library roots `[vendor, lib]`), tried in that order with
the first non-declining result winning: the reserved virtual path always
yields the embedded standard library whatever is on disk, and an import
resolvable both relative to the importer and in a library root resolves
relatively. -/
theorem resolver_chain_precedence {V : Type} (c : Compiler V)
    (fs : Fs) (importer imp content : String)
    (hne : imp ≠ VARS_PREFIX)
    (hrel : fs.readFile (pathPush (parentDir importer) imp) = some content)
    (_hlib : ∃ root ∈ [c.workspace.vendor, c.workspace.lib],
        (fs.readFile (pathPush root imp)).isSome) :
    c.create_state
      = [ Resolver.static { path := VARS_PREFIX, contents := LIB_CODE },
          Resolver.relative,
          Resolver.lib [c.workspace.vendor, c.workspace.lib] ]
    ∧ (∀ (fs2 : Fs) (importer2 : String),
        resolveChain fs2 importer2 VARS_PREFIX c.create_state
          = some ( VARS_PREFIX, LIB_CODE))
    ∧ resolveChain fs importer imp c.create_state
        = some (pathPush (parentDir importer) imp, content) := by
  refine ⟨rfl, fun fs2 importer2 => ?_, ?_⟩
  · simp [Compiler.create_state, resolveChain, Resolver.resolve]
  · simp [Compiler.create_state, resolveChain, Resolver.resolve, hne, hrel]

/-- Witness for **C1**: `other.jsonnet` exists both next to the importer and
in the vendor root; resolution picks the relative file, while the reserved
path serves the embedded library. -/
theorem resolver_chain_precedence_witness :
    resolveChain sampleFs "r/templates/main.jsonnet" VARS_PREFIX
        sampleCompiler.create_state
      = some ( VARS_PREFIX, LIB_CODE)
    ∧ resolveChain sampleFs "r/templates/main.jsonnet" "other.jsonnet"
        sampleCompiler.create_state
      = some ("r/templates/other.jsonnet", "relative content") := by
  have h := resolver_chain_precedence sampleCompiler sampleFs
    "r/templates/main.jsonnet" "other.jsonnet" "relative content"
    (by decide) (by decide)
    ⟨"r/vendor", by simp [sampleCompiler, sampleWorkspace], by decide⟩
  exact ⟨h.2.1 sampleFs "r/templates/main.jsonnet", h.2.2⟩

/-- Pointwise success for the non-tail-recursive `mapM'` over `Except`. -/
theorem mapM'_ok_of_forall {α β ε : Type} (g : α → Except ε β) (f : α → β)
    (l : List α) (h : ∀ a ∈ l, g a = .ok (f a)) :
    l.mapM' g = .ok (l.map f) := by
  induction l with
  | nil => rfl
  | cons hd tl ih =>
    have hhd : g hd = .ok (f hd) := h hd (by simp)
    have htl := ih (fun a ha => h a (by simp [ha]))
    rw [List.mapM'_cons, hhd, htl]
    rfl

/-- `mapM` over `Except` succeeds pointwise: if every element maps to `ok`,
the whole traversal is `ok` of the mapped list. -/
theorem mapM_ok_of_forall {α β ε : Type} (g : α → Except ε β) (f : α → β)
    (l : List α) (h : ∀ a ∈ l, g a = .ok (f a)) :
    l.mapM g = .ok (l.map f) := by
  rw [← List.mapM'_eq_mapM]
  exact mapM'_ok_of_forall g f l h

/-- Insertion sort on paths is invariant under permutation of its input:
there is only one sorted arrangement. -/
theorem insertionSort_eq_of_perm (l l' : List String) (h : l.Perm l') :
    List.insertionSort pathLe l
      = List.insertionSort pathLe l' := by
  have hs1 := List.sorted_insertionSort pathLe l
  have hs2 := List.sorted_insertionSort pathLe l'
  have hp := (List.perm_insertionSort pathLe l).trans
    (h.trans (List.perm_insertionSort pathLe l').symm)
  exact List.eq_of_perm_of_sorted hp hs1 hs2

/-- The `File` handler, on a string glob whose template compilation
succeeded, only reshapes the compiled list. -/
theorem fileHandler_of_ok (fs : TemplateFs)
    (tera : String → Json → Except String String) (root glob : String)
    (input : Json) (L : List String)
    (h : compile_template fs tera root glob input = .ok L) :
    fileHandler fs tera root input [("name", Json.str glob)]
      = collapseShape glob L := by
  show (match compile_template fs tera root glob input with
        | .error e => (.error e : Except String Json)
        | .ok compiled => collapseShape glob compiled) = _
  simp only [h]

/-- `collapseShape` on two or more results is the array of all of them. -/
theorem collapseShape_of_two_le (glob : String) (L : List String)
    (h : 2 ≤ L.length) :
    collapseShape glob L = .ok (Json.arr (L.map Json.str)) := by
  cases L with
  | nil => simp at h
  | cons a tl =>
    cases tl with
    | nil => simp at h
    | cons b rest => rfl

/-- `compile_template` under a totally readable filesystem and totally
succeeding renderer returns the rendered contents of the sorted matched
paths. -/
theorem compile_template_ok (fs : TemplateFs) (readF : String → String)
    (renderF : String → Json → String) (root glob : String) (input : Json)
    (entries : List String)
    (hdir : fs.dirExists (pathPush root TEMPLATES_FOLDER) = true)
    (hglob : fs.globBuild = .ok ())
    (hwalk : fs.walk = .ok entries)
    (hread : ∀ p, fs.readFile p = .ok (readF p)) :
    compile_template fs (fun content ctx => .ok (renderF content ctx))
        root glob input
      = .ok (((List.insertionSort pathLe entries).map readF).map
          (fun content => renderF content (mkContext input))) := by
  have h1 := mapM_ok_of_forall fs.readFile readF
    (List.insertionSort pathLe entries) (fun a _ => hread a)
  have h2 := mapM_ok_of_forall
    (fun content => (Except.ok (renderF content (mkContext input)) : Except String String))
    (fun content => renderF content (mkContext input))
    ((List.insertionSort pathLe entries).map readF)
    (fun a _ => rfl)
  simp only [compile_template, hdir, Bool.not_true, Bool.false_eq_true, if_false,
    hglob, hwalk, h1, h2]

/-- **C4.** A `File` invocation matching several files returns the rendered
contents in lexicographically sorted path order; the outcome is invariant
under permutation of the traversal order, so repeated runs over an unchanged
filesystem agree. -/
theorem file_function_sorted_deterministic
    (fs : TemplateFs) (readF : String → String) (renderF : String → Json → String)
    (root glob : String) (input : Json) (entries entries2 : List String)
    (hdir : fs.dirExists (pathPush root TEMPLATES_FOLDER) = true)
    (hglob : fs.globBuild = .ok ())
    (hwalk : fs.walk = .ok entries)
    (hread : ∀ p, fs.readFile p = .ok (readF p))
    (hperm : entries.Perm entries2) :
    (compile_template fs (fun content ctx => .ok (renderF content ctx))
        root glob input
      = .ok (((List.insertionSort pathLe entries).map readF).map
          (fun content => renderF content (mkContext input))))
    ∧ (∀ (tera : String → Json → Except String String),
        compile_template fs tera root glob input
          = compile_template { fs with walk := .ok entries2 } tera root glob input)
    ∧ (2 ≤ entries.length →
        fileHandler fs (fun content ctx => .ok (renderF content ctx)) root input
            [("name", Json.str glob)]
          = .ok (Json.arr
              ((((List.insertionSort pathLe entries).map readF).map
                (fun content => renderF content (mkContext input))).map Json.str))) := by
  have hok := compile_template_ok fs readF renderF root glob input entries
    hdir hglob hwalk hread
  refine ⟨hok, fun tera => ?_, fun hlen => ?_⟩
  · simp only [compile_template, hdir, hglob, hwalk]
    rw [insertionSort_eq_of_perm entries entries2 hperm]
  · rw [fileHandler_of_ok fs _ root glob input _ hok]
    apply collapseShape_of_two_le
    simp [List.length_insertionSort, hlen]

/-- Witness for **C4**: traversal order `["b.txt", "a.txt"]` still renders
alphabetically, and agrees with traversal order `["a.txt", "b.txt"]`. -/
theorem file_function_sorted_witness :
    compile_template (sampleTemplateFs (.ok ["b.txt", "a.txt"])) idTera
        "r" "*.txt" Json.null
      = .ok ["content of a.txt", "content of b.txt"]
    ∧ compile_template (sampleTemplateFs (.ok ["b.txt", "a.txt"])) idTera
        "r" "*.txt" Json.null
      = compile_template (sampleTemplateFs (.ok ["a.txt", "b.txt"])) idTera
        "r" "*.txt" Json.null
    ∧ fileHandler (sampleTemplateFs (.ok ["b.txt", "a.txt"])) idTera "r" Json.null
        [("name", Json.str "*.txt")]
      = .ok (Json.arr [Json.str "content of a.txt", Json.str "content of b.txt"]) := by
  have h := file_function_sorted_deterministic
    (sampleTemplateFs (.ok ["b.txt", "a.txt"]))
    (fun p => "content of " ++ p) (fun c _ => c) "r" "*.txt" Json.null
    ["b.txt", "a.txt"] ["a.txt", "b.txt"] rfl rfl rfl (fun p => rfl)
    (List.Perm.swap "a.txt" "b.txt" [])
  refine ⟨?_, ?_, ?_⟩
  · exact h.1
  · have h2 := h.2.1 idTera
    exact h2
  · exact h.2.2 (by decide)

/-- **C5.** The `File` function collapses its result shape: exactly one
match yields a plain string, zero matches yield an error naming the glob,
and a missing `files` directory yields an error whatever the glob machinery
would have done. -/
theorem file_function_shape_collapsing
    (fs : TemplateFs) (tera : String → Json → Except String String)
    (root glob : String) (input : Json) (p content rendered : String)
    (hdir : fs.dirExists (pathPush root TEMPLATES_FOLDER) = true)
    (hglob : fs.globBuild = .ok ())
    (hread : fs.readFile p = .ok content)
    (hrender : tera content (mkContext input) = .ok rendered) :
    (fileHandler { fs with walk := .ok [p] } tera root input
        [("name", Json.str glob)] = .ok (Json.str rendered))
    ∧ (fileHandler { fs with walk := .ok [] } tera root input
        [("name", Json.str glob)]
      = .error ("No template found for glob " ++ glob))
    ∧ (∀ (fs2 : TemplateFs),
        fs2.dirExists (pathPush root TEMPLATES_FOLDER) = false →
        ∀ (gb : Except String Unit) (w : Except String (List String))
          (rf : String → Except String String),
        compile_template { fs2 with globBuild := gb, walk := w, readFile := rf }
            tera root glob input
          = .error "No files folder to search for templates") := by
  have hsort : List.insertionSort pathLe [p] = [p] := rfl
  have hread1 : List.mapM ({ fs with walk := (.ok [p] : Except String (List String)) }).readFile [p]
      = .ok [content] :=
    mapM_ok_of_forall _ (fun _ => content) [p]
      (by
        intro a ha
        simp at ha
        rw [ha]
        exact hread)
  have hrender1 : List.mapM (fun c => tera c (mkContext input)) [content]
      = .ok [rendered] :=
    mapM_ok_of_forall _ (fun _ => rendered) [content]
      (by
        intro a ha
        simp at ha
        rw [ha]
        exact hrender)
  have hct1 : compile_template { fs with walk := .ok [p] } tera root glob input
      = .ok [rendered] := by
    simp only [compile_template, hdir, Bool.not_true, Bool.false_eq_true, if_false,
      hglob, hsort, hread1, hrender1]
  have hct2 : compile_template { fs with walk := .ok [] } tera root glob input
      = .ok [] := by
    simp only [compile_template, hdir, Bool.not_true, Bool.false_eq_true, if_false,
      hglob]
    rfl
  refine ⟨?_, ?_, fun fs2 hdir2 gb w rf => ?_⟩
  · rw [fileHandler_of_ok _ _ _ _ _ _ hct1]
    rfl
  · rw [fileHandler_of_ok _ _ _ _ _ _ hct2]
    rfl
  · simp only [compile_template, hdir2, Bool.not_false, if_true]

/-- Witness for **C5** at a one-file and a zero-file traversal, and a
missing `files` directory. -/
theorem file_function_shape_witness :
    fileHandler (sampleTemplateFs (.ok ["a.txt"])) idTera "r" Json.null
        [("name", Json.str "*.txt")]
      = .ok (Json.str "content of a.txt")
    ∧ fileHandler (sampleTemplateFs (.ok [])) idTera "r" Json.null
        [("name", Json.str "*.txt")]
      = .error ("No template found for glob " ++ "*.txt")
    ∧ compile_template
        { dirExists := fun _ => false, globBuild := .ok (),
          walk := .ok ["a.txt"], readFile := fun p => .ok p }
        idTera "r" "*.txt" Json.null
      = .error "No files folder to search for templates" := by
  have h := file_function_shape_collapsing (sampleTemplateFs (.ok ["a.txt"]))
    idTera "r" "*.txt" Json.null "a.txt" "content of a.txt" "content of a.txt"
    rfl rfl rfl rfl
  exact ⟨h.1, h.2.1,
    h.2.2 { dirExists := fun _ => false, globBuild := .error "x",
            walk := .error "x", readFile := fun _ => .error "x" } rfl
      (.ok ()) (.ok ["a.txt"]) (fun p => .ok p)⟩

/-- **C10.** `Package::compile` validates the input before compiling:
an input without a schema fails with `NoSchema`, a schema without an input
fails with `NoInput`, a non-object input fails with `InvalidInput` whatever
the schema says, only object-shaped supplied inputs ever reach compilation,
and on a validation error the result is the error alone, independent of the
compilation oracle. -/
theorem package_input_validation {ρ : Type} (p : Package)
    (doCompile : Package → Json → Option ρ → Except Error Json)
    (input : Option Json) (release : Option ρ) :
    (p.schema = none → ∀ v, input = some v →
        p.compile input release doCompile = .error .noSchema)
    ∧ (∀ s, p.schema = some s → input = none →
        p.compile input release doCompile = .error .noInput)
    ∧ (∀ s v, p.schema = some s → input = some v → v.isObject = false →
        p.compile input release doCompile = .error .invalidInput)
    ∧ (∀ v, input = some v → validate_input p.schema input = .ok () →
        v.isObject = true)
    ∧ (∀ e, validate_input p.schema input = .error e →
        ∀ (dc2 : Package → Json → Option ρ → Except Error Json),
          p.compile input release dc2 = .error e) := by
  refine ⟨fun hs v hv => ?_, fun s hs hv => ?_, fun s v hs hv hobj => ?_,
    fun v hv hok => ?_, fun e he dc2 => ?_⟩
  · simp [Package.compile, validate_input, hs, hv]
  · simp [Package.compile, validate_input, hs, hv]
  · simp [Package.compile, validate_input, hs, hv, hobj]
  · rw [hv] at hok
    cases hsc : p.schema with
    | none => rw [hsc] at hok; simp [validate_input] at hok
    | some s =>
      rw [hsc] at hok
      by_cases hobj : v.isObject = true
      · exact hobj
      · simp [validate_input, hobj] at hok
  · simp [Package.compile, he]

/-- Witness for **C10**: a schema accepting objects, exercised on a
non-object input. -/
theorem package_input_validation_witness :
    samplePackage.compile (some (Json.str "oops")) (none : Option Unit)
        sampleDoCompile
      = .error .invalidInput
    ∧ samplePackage.compile none (none : Option Unit) sampleDoCompile
      = .error .noInput := by
  have h1 := package_input_validation samplePackage sampleDoCompile
    (some (Json.str "oops")) none
  have h2 := package_input_validation samplePackage sampleDoCompile
    (none : Option Json) none
  exact ⟨h1.2.2.1 (fun j => j.isObject) (Json.str "oops") rfl rfl rfl,
    h2.2.1 (fun j => j.isObject) rfl rfl⟩

end Kct
